import Mathlib

/-!
Verification of the `supremes` repository (src/supremes/models.py and
src/supremes/helpers.py): a shallow embedding of its data model, its
JSON-to-entity builders, its speaker join/aggregation, and its URL cache,
together with theorems settling the frozen claims about that code.

Modelling conventions:
* Python's loosely typed JSON documents are the inductive `Json`; Python
  truthiness is `Json.truthy`; `data["k"]` is `Json.getField` (an assoc-list
  lookup that errors like `KeyError`/`TypeError` on a missing key or a
  non-object).
* Fallible construction (`from_json` builders, which raise in Python) is
  `Except String`; the silent `try/except` around a turn's speaker is
  `trySpeaker`, an `Option`-valued wrapper around the raising builder.
* Fields the Python code stores but never operates on keep the raw `Json`
  value; fields the code does string operations on (names, parties, votes,
  text) are `String`, following the source's own type annotations.
* pandas DataFrames are lists of typed rows; `merge` (inner join) and
  `groupby`/`agg` are the list functions `mergeDf` and `groupRows`.  Group
  order in `groupRows` is first-occurrence order: the source's pandas group
  order (sorted by key) is not relied on by any claim.
* Python string primitives used by the source (`in`, `split("/")`,
  `lower()`, `" ".join`, `<`) are re-implemented on character lists
  (`strContains`, `hrefSegments`, `lowerStr`, `joinSep`, `charListLt`) so
  that every definition evaluates inside the kernel.
* The network and the SHA-1 hash are external collaborators
  (`requests.get`, `hashlib.sha1`); the cache model takes them as function
  parameters, and the cache directory is explicit state.
-/

namespace Supremes

/-! ## Python string primitives -/

/-- Does `pat` occur at the head of the first list?  Helper for `strContains`. -/
def leadMatch : List Char → List Char → Bool
  | _, [] => true
  | [], _ :: _ => false
  | h :: hs, p :: ps => h == p && leadMatch hs ps

/-- Does `pat` occur contiguously anywhere in the list?  Helper for `strContains`. -/
def hasInfix (pat : List Char) : List Char → Bool
  | [] => leadMatch [] pat
  | h :: t => leadMatch (h :: t) pat || hasInfix pat t

/-- Python's case-sensitive substring test `needle in hay`. -/
def strContains (needle hay : String) : Bool :=
  hasInfix needle.data hay.data

/-- Split a character list at every occurrence of `sep`, keeping empty pieces,
exactly like Python's `str.split` with an explicit separator. -/
def splitOnChar (sep : Char) : List Char → List (List Char)
  | [] => [[]]
  | c :: cs =>
    if c == sep then [] :: splitOnChar sep cs
    else
      match splitOnChar sep cs with
      | [] => [[c]]
      | g :: gs => (c :: g) :: gs

/-- Python's `href.split("/")`. -/
def hrefSegments (s : String) : List String :=
  (splitOnChar '/' s.data).map String.mk

/-- Python's `str.lower()` (ASCII case folding, as in the names this code sees). -/
def lowerStr (s : String) : String :=
  String.mk (s.data.map Char.toLower)

/-- Python's `sep.join(pieces)`. -/
def joinSep (sep : String) : List String → String
  | [] => ""
  | [x] => x
  | x :: y :: xs => x ++ sep ++ joinSep sep (y :: xs)

/-- Python's lexicographic `<` on strings, at the character-list level. -/
def charListLt : List Char → List Char → Bool
  | [], [] => false
  | [], _ :: _ => true
  | _ :: _, [] => false
  | a :: as, b :: bs => a < b || (a == b && charListLt as bs)

/-! ## JSON documents -/

/-- A parsed JSON document, as handed around by `rapidjson`. -/
inductive Json where
  | null : Json
  | bool : Bool → Json
  | num : Int → Json
  | str : String → Json
  | arr : List Json → Json
  | obj : List (String × Json) → Json

/-- Python truthiness of a JSON value (`if data:`). -/
def Json.truthy : Json → Bool
  | .null => false
  | .bool b => b
  | .num n => n != 0
  | .str s => s != ""
  | .arr l => !l.isEmpty
  | .obj m => !m.isEmpty

/-- Python's `data[key]` on a document: a lookup in an object, a `KeyError` on
a missing key, a `TypeError` on any non-object. -/
def Json.getField : Json → String → Except String Json
  | .obj kvs, k =>
    match kvs.find? (fun kv => kv.1 == k) with
    | some kv => .ok kv.2
    | none => .error ("KeyError: " ++ k)
  | _, k => .error ("TypeError: " ++ k)

/-- Demand a JSON string (the code is about to do string operations on it;
Python would raise a `TypeError`/`AttributeError` on anything else). -/
def Json.expectStr : Json → Except String String
  | .str s => .ok s
  | _ => .error "TypeError: expected a string"

/-- Demand a JSON number. -/
def Json.expectInt : Json → Except String Int
  | .num n => .ok n
  | _ => .error "TypeError: expected a number"

/-- Demand a JSON array (the code is about to iterate it as a list). -/
def Json.expectArr : Json → Except String (List Json)
  | .arr l => .ok l
  | _ => .error "TypeError: expected a list"

/-- A Python list comprehension `[f(x) for x in xs]` over fallible `f`:
sequential, first exception aborts. -/
def mapME {α β : Type} (f : α → Except String β) : List α → Except String (List β)
  | [] => .ok []
  | x :: xs => do
    let y ← f x
    let ys ← mapME f xs
    pure (y :: ys)

/-! ## The entity model (models.py classes) -/

/-- `Person.__init__`: fields `id`, `name`, `last_name`, `identifier`.  Only
`name` is operated on (equality, ordering, hashing), so the other fields keep
their raw document values. -/
structure Person where
  id : Json
  name : String
  last_name : Json
  identifier : Json

/-- `Person.__eq__`: `False` against `None` (a falsy `other`), otherwise exact
case-sensitive comparison of the `name` fields. -/
def Person.eqPy (p : Person) (other : Option Person) : Bool :=
  match other with
  | none => false
  | some q => p.name == q.name

/-- `Person.__lt__`: case-insensitive comparison `self.name.lower() < other.name.lower()`. -/
def Person.ltPy (p q : Person) : Bool :=
  charListLt (lowerStr p.name).data (lowerStr q.name).data

/-- `Role.__init__`.  `role_id` is whatever `Role.from_json` computed for it
(a list of path segments); every other field keeps its raw document value. -/
structure Role where
  role_id : List String
  role_title : Json
  role_type : Json
  appointing_president : Json
  institution_name : Json
  date_end : Json
  date_start : Json

/-- `Justice`: a `Person` plus an ordered list of `Role`s. -/
structure Justice where
  toPerson : Person
  roles : List Role

/-- `Advocate`: a `Person` plus `case_advocate_id` (a path segment string) and
a raw description. -/
structure Advocate where
  toPerson : Person
  case_advocate_id : String
  description : Json

/-- `Court.__init__`. -/
structure Court where
  id : Json
  identifier : Json
  name : Json
  justices : List Justice

/-- `Utterance.__init__`: one turn of speech.  The speaker is absent when the
turn lacked usable speaker metadata.  Python's `end` field is `stop` here
(`end` is reserved in Lean). -/
structure Utterance where
  speaker : Option Person
  text : String
  start : Json
  stop : Json

/-- `Transcript.__init__`. -/
structure Transcript where
  id : Json
  title : Json
  utterances : List Utterance

/-- `Ballot.__init__`: one justice's vote. -/
structure Ballot where
  voter : Justice
  vote : String

/-- `Decision` fields, as assigned by `Decision.__init__`. -/
structure Decision where
  ballots : Option (List Ballot)
  decision_type : Json
  majority_vote : Json
  minority_vote : Json
  winning_party : Option String
  winning_party_name : Option String

/-- `Decision.__init__`: stores the raw `winning_party` free text as
`winning_party_name` and, when that raw value is truthy, resolves
`winning_party` to the first party's label if the raw value is a substring of
`first_party`, else to the second party's label if it is a substring of
`second_party`, else leaves it `None`. -/
def Decision.make (ballots : Option (List Ballot)) (winning_party : Option String)
    (decision_type : Json) (first_party second_party : String)
    (first_party_label second_party_label : String)
    (majority_vote minority_vote : Json) : Decision :=
  { ballots := ballots
    decision_type := decision_type
    majority_vote := majority_vote
    minority_vote := minority_vote
    winning_party_name := winning_party
    winning_party :=
      match winning_party with
      | none => none
      | some wp =>
        if wp = "" then none
        else if strContains wp first_party then some first_party_label
        else if strContains wp second_party then some second_party_label
        else none }

/-- `Case.__init__`.  `term` and `docket_number` follow the source's type
annotations (`int`, and `str` as in `Case.from_id`); the required text fields
the join and the decision logic operate on are strings; the unoperated fields
keep raw document values.  The optional lists may contain `none` entries for
`Court` (its builder returns `None` on placeholder strings). -/
structure Case where
  term : Int
  docket_number : String
  id : Json
  first_party : String
  second_party : String
  description : Json
  name : Json
  decisions : Option (List Decision)
  advocates : Option (List Advocate)
  heard_by : Option (List (Option Court))
  decided_by : Option (List (Option Court))
  transcripts : Option (List Transcript)

/-! ## Speaker join and aggregation (`Case.get_transcript_df`) -/

/-- One row of a joined DataFrame before the `term`/`docket_number` columns
are attached: columns `speaker`, `text`, `vote`. -/
structure JoinRow where
  speaker : Person
  text : String
  vote : String

/-- One row of the final DataFrame: columns `speaker`, `term`,
`docket_number`, `text`, `vote`. -/
structure Row where
  speaker : Person
  term : Int
  docket_number : String
  text : String
  vote : String

/-- `vote_df`: one `(voter, vote)` row per ballot. -/
def voteDf (ballots : List Ballot) : List (Justice × String) :=
  ballots.map fun b => (b.voter, b.vote)

/-- `speech_df`: one `(speaker, text)` row per utterance. -/
def speechDf (utterances : List Utterance) : List (Option Person × String) :=
  utterances.map fun u => (u.speaker, u.text)

/-- The row content of the inner join under `Person.__eq__` (name equality;
an absent speaker matches nothing), keeping left-row order and, within one
left row, right-row order. -/
def mergeRows : List (Option Person × String) → List (Justice × String) → List JoinRow
  | [], _ => []
  | su :: rest, votes =>
    (match su.1 with
     | none => []
     | some p =>
       (votes.filter fun v => p.name == v.1.toPerson.name).map
         fun v => { speaker := p, text := su.2, vote := v.2 }) ++ mergeRows rest votes

/-- `speech_df.merge(vote_df, left_on="speaker", right_on="voter")`: when the
transcript has no utterances, `pd.DataFrame([])` is an empty frame with no
columns at all, and pandas raises `KeyError` for the missing `speaker` join
column; otherwise the inner join of `mergeRows`. -/
def mergeDf (speech : List (Option Person × String)) (votes : List (Justice × String)) :
    Except String (List JoinRow) :=
  match speech with
  | [] => .error "KeyError: speaker"
  | _ :: _ => .ok (mergeRows speech votes)

/-- The no-transcript branch for one decision: the vote table itself with an
empty `text` column, reordered to (speaker, text, vote). -/
def voteOnlyRows (ballots : List Ballot) : List JoinRow :=
  ballots.map fun b => { speaker := b.voter.toPerson, text := "", vote := b.vote }

/-- The `for transcript in self.transcripts` loop for one decision's vote
table: one merge per transcript in order, aborting with pandas' error at the
first transcript whose utterance list is empty. -/
def transcriptsDf (ballots : List Ballot) : List Transcript → Except String (List JoinRow)
  | [] => .ok []
  | t :: ts => do
    let df ← mergeDf (speechDf t.utterances) (voteDf ballots)
    let rest ← transcriptsDf ballots ts
    pure (df ++ rest)

/-- The DataFrames appended to `dfs` for one decision's ballots: with no
(truthy) transcripts, the vote table itself; otherwise the per-transcript
inner joins, which raise on an empty-utterance transcript. -/
def decisionDf (c : Case) (ballots : List Ballot) : Except String (List JoinRow) :=
  match c.transcripts with
  | none => .ok (voteOnlyRows ballots)
  | some [] => .ok (voteOnlyRows ballots)
  | some ts => transcriptsDf ballots ts

/-- The error-free value of `decisionDf`, used to state results on inputs
where no join raises (transcripts falsy, or every transcript non-empty). -/
def decisionRows (c : Case) (ballots : List Ballot) : List JoinRow :=
  match c.transcripts with
  | none => voteOnlyRows ballots
  | some [] => voteOnlyRows ballots
  | some ts => ts.flatMap fun t => mergeRows (speechDf t.utterances) (voteDf ballots)

/-- The `for decision in self.decisions` loop of `get_transcript_df`: any
decision with falsy `ballots` triggers `return None` (discarding everything
accumulated so far), a raising join aborts with that error, and otherwise
each decision appends its tables to `dfs`. -/
def collectDfs (c : Case) : List Decision → Except String (Option (List JoinRow))
  | [] => .ok (some [])
  | d :: rest =>
    match d.ballots with
    | none => .ok none
    | some [] => .ok none
    | some bs =>
      match decisionDf c bs with
      | .error e => .error e
      | .ok df =>
        match collectDfs c rest with
        | .error e => .error e
        | .ok none => .ok none
        | .ok (some tail) => .ok (some (df ++ tail))

/-- Attach the constant `term` and `docket_number` columns to the
concatenated rows. -/
def attachMeta (c : Case) (rows : List JoinRow) : List Row :=
  rows.map fun j =>
    { speaker := j.speaker, term := c.term, docket_number := c.docket_number,
      text := j.text, vote := j.vote }

/-- The `groupby(["speaker", "term", "docket_number"])` key of a row; pandas
groups object columns by `__hash__`/`__eq__`, which for `Person` is the
case-sensitive name. -/
def groupKeyOf (r : Row) : String × Int × String :=
  (r.speaker.name, r.term, r.docket_number)

/-- First-occurrence deduplication of the group keys. -/
def dedupKeys {K : Type} [DecidableEq K] : List K → List K
  | [] => []
  | k :: ks => k :: (dedupKeys ks).filter (fun x => decide (x ≠ k))

/-- The aggregated row for one group key: `text` is the space-join of the
group's `text` values in row order, `vote` is the group's first `vote`, and
the `speaker` cell is the group's `Person` key.  (The empty-group branch is
never reached for keys drawn from the rows.) -/
def mkGroupRow (rows : List Row) (k : String × Int × String) : Row :=
  match rows.filter (fun r => decide (groupKeyOf r = k)) with
  | [] =>
    { speaker := { id := Json.null, name := k.1, last_name := Json.null, identifier := Json.null },
      term := k.2.1, docket_number := k.2.2, text := "", vote := "" }
  | g :: gs =>
    { speaker := g.speaker, term := k.2.1, docket_number := k.2.2,
      text := joinSep " " ((g :: gs).map Row.text), vote := g.vote }

/-- `df.groupby(["speaker", "term", "docket_number"]).agg({"text": " ".join,
"vote": "first"}).reset_index()`, with groups listed in first-occurrence
order (the source's group order, pandas' sort by key, is not relied on by any
claim). -/
def groupRows (rows : List Row) : List Row :=
  (dedupKeys (rows.map groupKeyOf)).map (mkGroupRow rows)

/-- `Case.get_transcript_df`: `None` for falsy `decisions`; builds the vote
table and joins for every decision in order, returning `None` as soon as a
decision has falsy `ballots` and propagating pandas' error from an
unjoinable (empty-utterance) transcript; concatenates, attaches
`term`/`docket_number`, then groups or reorders columns. -/
def Case.get_transcript_df (c : Case) (groupby : Bool) : Except String (Option (List Row)) :=
  match c.decisions with
  | none => .ok none
  | some [] => .ok none
  | some ds =>
    match collectDfs c ds with
    | .error e => .error e
    | .ok none => .ok none
    | .ok (some joined) =>
      let rows := attachMeta c joined
      if groupby then .ok (some (groupRows rows)) else .ok (some rows)

/-! ## Document-to-entity builders (`from_json` classmethods) -/

/-- `Role.from_json`: derives `role_id` as `data["href"].split("/")[:-1]` —
all segments except the last — and stores the remaining fields raw. -/
def Role.from_json (data : Json) : Except String Role := do
  let href ← data.getField "href" >>= Json.expectStr
  let id := (hrefSegments href).dropLast
  let role_title ← data.getField "role_title"
  let role_type ← data.getField "type"
  let appointing_president ← data.getField "appointing_president"
  let institution_name ← data.getField "institution_name"
  let date_end ← data.getField "date_end"
  let date_start ← data.getField "date_start"
  pure { role_id := id, role_title, role_type, appointing_president,
         institution_name, date_end, date_start }

/-- `Justice.from_json`: builds the role list from `data["roles"]`, then the
person fields. -/
def Justice.from_json (data : Json) : Except String Justice := do
  let rolesV ← data.getField "roles"
  let rolesList ← Json.expectArr rolesV
  let roles ← mapME Role.from_json rolesList
  let idV ← data.getField "ID"
  let name ← data.getField "name" >>= Json.expectStr
  let last_name ← data.getField "last_name"
  let identifier ← data.getField "identifier"
  pure { toPerson := { id := idV, name, last_name, identifier }, roles }

/-- `Advocate.from_json`: derives `case_advocate_id` as
`data["href"].split("/")[-1]` — exactly the last segment — and reads the
person fields from the nested `advocate` object. -/
def Advocate.from_json (data : Json) : Except String Advocate := do
  let href ← data.getField "href" >>= Json.expectStr
  let adv_id := (hrefSegments href).getLastD ""
  let adv ← data.getField "advocate"
  let idV ← adv.getField "ID"
  let name ← adv.getField "name" >>= Json.expectStr
  let last_name ← adv.getField "last_name"
  let identifier ← adv.getField "identifier"
  let description ← data.getField "advocate_description"
  pure { toPerson := { id := idV, name, last_name, identifier },
         case_advocate_id := adv_id, description }

/-- `Court.from_json`: a plain string document (the API's placeholder quirk)
yields `None`; any other falsy document yields `None`; a truthy document is
built, its justices from `data["members"]`. -/
def Court.from_json : Json → Except String (Option Court)
  | .str _ => .ok none
  | data =>
    if Json.truthy data then do
      let membersV ← data.getField "members"
      let members ← Json.expectArr membersV
      let justices ← mapME Justice.from_json members
      let idV ← data.getField "ID"
      let identV ← data.getField "identifier"
      let nameV ← data.getField "name"
      pure (some { id := idV, identifier := identV, name := nameV, justices })
    else .ok none

/-- `Ballot.from_json`: the voter from the nested `member` object, the vote
string from `vote`. -/
def Ballot.from_json (data : Json) : Except String Ballot := do
  let voter ← data.getField "member" >>= Justice.from_json
  let vote ← data.getField "vote" >>= Json.expectStr
  pure { voter, vote }

/-- `Decision.from_json`: `ballots` from `data["votes"]` when truthy, the raw
`winning_party` when truthy, then `Decision.__init__` (`Decision.make`). -/
def Decision.from_json (data : Json) (first_party second_party : String)
    (first_party_label second_party_label : String) : Except String Decision := do
  let votesV ← data.getField "votes"
  let ballots ←
    if Json.truthy votesV then do
      let items ← Json.expectArr votesV
      let bs ← mapME Ballot.from_json items
      pure (some bs)
    else pure (none : Option (List Ballot))
  let wpV ← data.getField "winning_party"
  let winning_party ←
    if Json.truthy wpV then do
      let s ← Json.expectStr wpV
      pure (some s)
    else pure (none : Option String)
  let decision_type ← data.getField "decision_type"
  let majority_vote ← data.getField "majority_vote"
  let minority_vote ← data.getField "minority_vote"
  pure (Decision.make ballots winning_party decision_type first_party second_party
    first_party_label second_party_label majority_vote minority_vote)

/-- The unprotected speaker construction inside `Transcript.from_json`'s
`try` block: `turn["speaker"]` and the four person fields. -/
def speakerRaw (turn : Json) : Except String Person := do
  let spk ← turn.getField "speaker"
  let idV ← spk.getField "ID"
  let name ← spk.getField "name" >>= Json.expectStr
  let last_name ← spk.getField "last_name"
  let identifier ← spk.getField "identifier"
  pure { id := idV, name, last_name, identifier }

/-- The `try/except` around the speaker: any construction failure becomes an
absent speaker instead of an error. -/
def trySpeaker (turn : Json) : Option Person :=
  match speakerRaw turn with
  | .ok p => some p
  | .error _ => none

/-- One turn of the `for turn in section["turns"]` loop: the protected
speaker, then the space-joined `text_blocks` texts and the raw
`start`/`stop` values — any failure in those is not protected. -/
def buildUtterance (turn : Json) : Except String Utterance := do
  let speaker := trySpeaker turn
  let tbsV ← turn.getField "text_blocks"
  let tbs ← Json.expectArr tbsV
  let texts ← mapME (fun x => x.getField "text" >>= Json.expectStr) tbs
  let text := joinSep " " texts
  let start ← turn.getField "start"
  let stop ← turn.getField "stop"
  pure { speaker, text, start, stop }

/-- The inner turn loop of `Transcript.from_json`, in document order. -/
def buildTurns : List Json → Except String (List Utterance)
  | [] => .ok []
  | t :: ts => do
    let u ← buildUtterance t
    let us ← buildTurns ts
    pure (u :: us)

/-- The outer section loop of `Transcript.from_json`: each section's `turns`
list is iterated, utterances accumulated across sections in order. -/
def buildSections : List Json → Except String (List Utterance)
  | [] => .ok []
  | s :: ss => do
    let turnsV ← s.getField "turns"
    let turns ← Json.expectArr turnsV
    let us ← buildTurns turns
    let rest ← buildSections ss
    pure (us ++ rest)

/-- `Transcript.from_json`: iterates `data["transcript"]["sections"]`, then
reads `id` and `title`. -/
def Transcript.from_json (data : Json) : Except String Transcript := do
  let tr ← data.getField "transcript"
  let sectionsV ← tr.getField "sections"
  let sections ← Json.expectArr sectionsV
  let utterances ← buildSections sections
  let idV ← data.getField "id"
  let title ← data.getField "title"
  pure { id := idV, title, utterances }

/-- `Transcript.from_id`: fetches the oral-argument document for the id via
the loader (abstracted as the `fetch` collaborator, URL to parsed document)
and builds the transcript from it. -/
def Transcript.from_id (fetch : String → Json) (id : Int) : Except String Transcript :=
  Transcript.from_json
    (fetch ("https://api.oyez.org/case_media/oral_argument_audio/" ++ toString id))

/-- The optional-list pattern of `Case.from_json`: `if data[k]: [build(x) for
x in data[k]] else None` — a falsy source value yields an absent field, a
truthy one is iterated. -/
def optListField {α : Type} (v : Json) (build : Json → Except String α) :
    Except String (Option (List α)) :=
  if Json.truthy v then do
    let items ← Json.expectArr v
    let xs ← mapME build items
    pure (some xs)
  else pure none

/-- `Case.from_json`: the five optional list fields in source order
(advocates, oral-argument transcripts, decided-by courts, heard-by courts,
decisions), then the required scalar fields.  Each oral-argument reference
triggers one fetch; each decision is built with the case's party names and
labels, looked up per decision as in the source comprehension. -/
def Case.from_json (fetch : String → Json) (data : Json) : Except String Case := do
  let advV ← data.getField "advocates"
  let advocates ← optListField advV Advocate.from_json
  let oaaV ← data.getField "oral_argument_audio"
  let transcripts ← optListField oaaV (fun argument => do
    let idN ← argument.getField "id" >>= Json.expectInt
    Transcript.from_id fetch idN)
  let dbV ← data.getField "decided_by"
  let decided_by_courts ← optListField dbV Court.from_json
  let hbV ← data.getField "heard_by"
  let heard_by_courts ← optListField hbV Court.from_json
  let decV ← data.getField "decisions"
  let decisions ← optListField decV (fun decision => do
    let fp ← data.getField "first_party" >>= Json.expectStr
    let sp ← data.getField "second_party" >>= Json.expectStr
    let fpl ← data.getField "first_party_label" >>= Json.expectStr
    let spl ← data.getField "second_party_label" >>= Json.expectStr
    Decision.from_json decision fp sp fpl spl)
  let term ← data.getField "term" >>= Json.expectInt
  let docket_number ← data.getField "docket_number" >>= Json.expectStr
  let idV ← data.getField "ID"
  let first_party ← data.getField "first_party" >>= Json.expectStr
  let second_party ← data.getField "second_party" >>= Json.expectStr
  let description ← data.getField "description"
  let name ← data.getField "name"
  pure { term, docket_number, id := idV, first_party, second_party, description, name,
         decisions, advocates, heard_by := heard_by_courts,
         decided_by := decided_by_courts, transcripts }

/-! ## Cache store (`helpers.load_from_remote`) -/

/-- The cache directory: one stored (already parsed) document per key.  New
writes shadow old ones, as `open(path, "w")` does. -/
structure CacheState (Doc : Type) where
  files : List (String × Doc)

/-- `glob.glob(desired_path)` plus the read: the stored document for a key,
if a file for it exists. -/
def lookupFile {Doc : Type} (files : List (String × Doc)) (key : String) : Option Doc :=
  match files.find? (fun kv => kv.1 == key) with
  | some kv => some kv.2
  | none => none

/-- Persist a parsed document under a key (the `rapidjson.dump` write;
serialize-then-parse is the identity at the document level). -/
def writeFile {Doc : Type} (st : CacheState Doc) (key : String) (d : Doc) : CacheState Doc :=
  { files := (key, d) :: st.files }

/-- The cache key of a URL: `hashlib.sha1(url.encode("utf-8")).hexdigest()`.
The SHA-1 collaborator is the `hashFn` parameter; the key depends on nothing
but the URL string. -/
def cacheKey (hashFn : String → String) (url : String) : String :=
  hashFn url

/-- What one call to `load_from_remote` produced: the returned document, the
cache directory afterwards, and how many network requests were made. -/
structure LoadResult (Doc : Type) where
  doc : Doc
  state : CacheState Doc
  webFetches : Nat

/-- `load_from_remote`: on a cache hit with `overwrite=False`, return the
stored document without touching the network; otherwise fetch from the
network collaborator `net`, persist, and return.  Documents and the network
are abstract (`requests.get` + `rapidjson.loads` is `net`). -/
def load_from_remote {Doc : Type} (hashFn : String → String) (net : String → Doc)
    (url : String) (overwrite : Bool) (st : CacheState Doc) : LoadResult Doc :=
  let key := cacheKey hashFn url
  match lookupFile st.files key, overwrite with
  | some d, false => { doc := d, state := st, webFetches := 0 }
  | some _, true =>
    let d := net url
    { doc := d, state := writeFile st key d, webFetches := 1 }
  | none, _ =>
    let d := net url
    { doc := d, state := writeFile st key d, webFetches := 1 }

/-! ## Concrete instances used to instantiate the theorems -/

/-- A concrete justice-person. -/
def pA : Person := { id := .num 1, name := "JusticeA", last_name := .null, identifier := .null }

/-- A second concrete justice-person. -/
def pB : Person := { id := .num 2, name := "JusticeB", last_name := .null, identifier := .null }

/-- A concrete person who cast no ballot. -/
def pU : Person := { id := .num 3, name := "Stranger", last_name := .null, identifier := .null }

/-- `pA` as a justice. -/
def jA : Justice := { toPerson := pA, roles := [] }

/-- `pB` as a justice. -/
def jB : Justice := { toPerson := pB, roles := [] }

/-- `pA`'s majority ballot. -/
def ballotA : Ballot := { voter := jA, vote := "majority" }

/-- `pB`'s minority ballot. -/
def ballotB : Ballot := { voter := jB, vote := "minority" }

/-- A decision whose only ballot is `ballotA`. -/
def cxD1 : Decision :=
  { ballots := some [ballotA], decision_type := .null, majority_vote := .null,
    minority_vote := .null, winning_party := none, winning_party_name := none }

/-- A second decision whose only ballot is `ballotB`. -/
def cxD2 : Decision :=
  { ballots := some [ballotB], decision_type := .null, majority_vote := .null,
    minority_vote := .null, winning_party := none, winning_party_name := none }

/-- A case with two ballot-carrying decisions and no transcripts. -/
def cxCase : Case :=
  { term := 2020, docket_number := "1", id := .null, first_party := "F",
    second_party := "S", description := .null, name := .null,
    decisions := some [cxD1, cxD2], advocates := none, heard_by := none,
    decided_by := none, transcripts := none }

/-- The end-to-end transcript from the spec's join scenario: utterances by
both voters, one speakerless turn, and one turn by a non-voter. -/
def e2eTranscript : Transcript :=
  { id := .null, title := .null, utterances :=
      [ { speaker := some pA, text := "Hello", start := .null, stop := .null },
        { speaker := some pB, text := "Goodbye", start := .null, stop := .null },
        { speaker := none, text := "Off the record", start := .null, stop := .null },
        { speaker := some pU, text := "Objection", start := .null, stop := .null } ] }

/-- The end-to-end decision: ballots for `pA` (majority) and `pB` (minority). -/
def e2eDecision : Decision :=
  { ballots := some [ballotA, ballotB], decision_type := .null, majority_vote := .null,
    minority_vote := .null, winning_party := none, winning_party_name := none }

/-- The end-to-end case from the spec's join scenario. -/
def e2eCase : Case :=
  { term := 2021, docket_number := "17-1618", id := .null, first_party := "F",
    second_party := "S", description := .null, name := .null,
    decisions := some [e2eDecision], advocates := none, heard_by := none,
    decided_by := none, transcripts := some [e2eTranscript] }

/-- A transcript in which `pA` speaks twice. -/
def grpTranscript : Transcript :=
  { id := .null, title := .null, utterances :=
      [ { speaker := some pA, text := "Hello", start := .null, stop := .null },
        { speaker := some pA, text := "again", start := .null, stop := .null } ] }

/-- A case whose one voter speaks twice, for the aggregation scenario. -/
def grpCase : Case :=
  { term := 2021, docket_number := "17-1618", id := .null, first_party := "F",
    second_party := "S", description := .null, name := .null,
    decisions := some [cxD1], advocates := none, heard_by := none,
    decided_by := none, transcripts := some [grpTranscript] }

/-- A transcript with no utterances: its speech DataFrame has no columns. -/
def emptyTranscript : Transcript := { id := .null, title := .null, utterances := [] }

/-- A case with a usable vote table and one empty transcript. -/
def emptyTrCase : Case :=
  { term := 2020, docket_number := "2", id := .null, first_party := "F",
    second_party := "S", description := .null, name := .null,
    decisions := some [cxD1], advocates := none, heard_by := none,
    decided_by := none, transcripts := some [emptyTranscript] }

/-- A fetch collaborator that is never consulted. -/
def fetchNull : String → Json := fun _ => Json.null

/-- A minimal case document with all five optional list fields null. -/
def c6doc : Json :=
  .obj [("advocates", .null), ("oral_argument_audio", .null), ("decided_by", .null),
        ("heard_by", .null), ("decisions", .null), ("term", .num 2020),
        ("docket_number", .str "17-1618"), ("ID", .num 7),
        ("first_party", .str "A"), ("second_party", .str "B"),
        ("description", .null), ("name", .null)]

/-- The case built from `c6doc`. -/
def c6case : Case :=
  { term := 2020, docket_number := "17-1618", id := .num 7, first_party := "A",
    second_party := "B", description := .null, name := .null,
    decisions := none, advocates := none, heard_by := none, decided_by := none,
    transcripts := none }

/-- A turn whose speaker metadata is unusable (`turn["speaker"]["ID"]` raises)
but whose required fields are all present. -/
def turnGood : Json :=
  .obj [("speaker", .null),
        ("text_blocks", .arr [.obj [("text", .str "Hi")]]),
        ("start", .num 0), ("stop", .num 1)]

/-- The utterance `turnGood` builds: absent speaker, joined text. -/
def uGood : Utterance := { speaker := none, text := "Hi", start := .num 0, stop := .num 1 }

/-- A turn missing the required `text_blocks` key. -/
def turnBad : Json :=
  .obj [("speaker", .null), ("start", .num 0), ("stop", .num 1)]

/-- A transcript document whose only turn is `turnBad`. -/
def dataBad : Json :=
  .obj [("transcript", .obj [("sections", .arr [.obj [("turns", .arr [turnBad])]])]),
        ("id", .num 1), ("title", .str "t")]

/-- A role document with a three-segment href. -/
def roleDoc10 : Json :=
  .obj [("href", .str "people/roles/123"), ("role_title", .null), ("type", .null),
        ("appointing_president", .null), ("institution_name", .null),
        ("date_end", .null), ("date_start", .null)]

/-- An advocate document with a three-segment href. -/
def advDoc10 : Json :=
  .obj [("href", .str "a/b/9"),
        ("advocate", .obj [("ID", .num 4), ("name", .str "Adv"),
                           ("last_name", .null), ("identifier", .null)]),
        ("advocate_description", .null)]

/-- The role `roleDoc10` builds: `role_id` is every href segment but the last. -/
def role10 : Role :=
  { role_id := ["people", "roles"], role_title := .null, role_type := .null,
    appointing_president := .null, institution_name := .null,
    date_end := .null, date_start := .null }

/-- The advocate `advDoc10` builds: `case_advocate_id` is the last href segment. -/
def adv10 : Advocate :=
  { toPerson := { id := .num 4, name := "Adv", last_name := .null, identifier := .null },
    case_advocate_id := "9", description := .null }

/-! ## Helper lemmas -/

/-- Bind on a success reduces. -/
theorem bindOk {α β : Type} (a : α) (f : α → Except String β) :
    (Except.ok a >>= f) = f a := rfl

/-- Bind on an error short-circuits. -/
theorem bindErr {α β : Type} (e : String) (f : α → Except String β) :
    ((Except.error e : Except String α) >>= f) = Except.error e := rfl

/-- Invert a successful `Except` bind. -/
theorem exceptBind_ok {α β : Type} {x : Except String α} {f : α → Except String β} {c : β}
    (h : x >>= f = .ok c) : ∃ v, x = .ok v ∧ f v = .ok c := by
  cases x with
  | ok v => exact ⟨v, rfl, h⟩
  | error e => simp [Bind.bind, Except.bind] at h

/-- A successful comprehension preserves the list length. -/
theorem mapME_length {α β : Type} {f : α → Except String β} :
    ∀ {l : List α} {ys : List β}, mapME f l = .ok ys → ys.length = l.length := by
  intro l
  induction l with
  | nil =>
    intro ys h
    simp only [mapME] at h
    cases h
    rfl
  | cons x xs ih =>
    intro ys h
    simp only [mapME] at h
    obtain ⟨y, hy, h⟩ := exceptBind_ok h
    obtain ⟨ys', hys, h⟩ := exceptBind_ok h
    cases h
    simp [ih hys]

/-- Python string comparison is irreflexive. -/
theorem charListLt_self : ∀ l : List Char, charListLt l l = false := by
  intro l
  induction l with
  | nil => rfl
  | cons a as ih => simp [charListLt, ih]

/-- What a successful optional-list projection can look like: absent for a
falsy source value, and a non-empty list for a truthy one — never an empty
list. -/
theorem optListField_spec {α : Type} {v : Json} {build : Json → Except String α}
    {r : Option (List α)} (h : optListField v build = .ok r) :
    (Json.truthy v = false → r = none)
    ∧ (∀ l, r = some l → l ≠ [])
    ∧ (Json.truthy v = true → ∃ l, r = some l ∧ l ≠ []) := by
  unfold optListField at h
  by_cases ht : Json.truthy v
  · rw [if_pos ht] at h
    obtain ⟨items, hi, h⟩ := exceptBind_ok h
    obtain ⟨xs, hxs, h⟩ := exceptBind_ok h
    have hr : r = some xs := by
      simpa [pure, Except.pure] using h.symm
    have hvarr : v = Json.arr items := by
      cases v <;> simp_all [Json.expectArr]
    have hitems : items ≠ [] := by
      intro hnil
      rw [hvarr, hnil] at ht
      simp [Json.truthy] at ht
    have hxs_ne : xs ≠ [] := by
      intro hnil
      have := mapME_length hxs
      rw [hnil] at this
      exact hitems (List.eq_nil_of_length_eq_zero this.symm)
    refine ⟨fun hf => absurd ht (by simp [hf]), ?_, fun _ => ⟨xs, hr, hxs_ne⟩⟩
    intro l hl
    rw [hr] at hl
    cases hl
    exact hxs_ne
  · rw [if_neg ht] at h
    have hr : r = none := by
      simpa [pure, Except.pure] using h.symm
    subst hr
    exact ⟨fun _ => rfl, fun l hl => by simp at hl, fun htr => absurd htr ht⟩

/-- Membership in the deduplicated key list is membership in the original. -/
theorem mem_dedupKeys {K : Type} [DecidableEq K] (k : K) :
    ∀ ks : List K, k ∈ dedupKeys ks ↔ k ∈ ks := by
  intro ks
  induction ks with
  | nil => simp [dedupKeys]
  | cons a as ih =>
    by_cases hka : k = a
    · subst hka
      simp [dedupKeys]
    · simp [dedupKeys, List.mem_filter, hka, ih]

/-- The deduplicated key list has no duplicates. -/
theorem nodup_dedupKeys {K : Type} [DecidableEq K] : ∀ ks : List K, (dedupKeys ks).Nodup := by
  intro ks
  induction ks with
  | nil => simp [dedupKeys]
  | cons a as ih =>
    refine List.Nodup.cons ?_ (List.Nodup.filter _ ih)
    intro ha
    have := (List.mem_filter.mp ha).2
    simp at this

/-- The head of a non-empty filter satisfies the predicate and is a member. -/
theorem filter_head {α : Type} {p : α → Bool} :
    ∀ {l : List α} {x : α} {xs : List α}, l.filter p = x :: xs → p x = true ∧ x ∈ l := by
  intro l
  induction l with
  | nil => intro x xs h; simp at h
  | cons a as ih =>
    intro x xs h
    by_cases hpa : p a
    · rw [List.filter_cons_of_pos hpa] at h
      cases h
      exact ⟨hpa, List.mem_cons_self a as⟩
    · rw [List.filter_cons_of_neg (by simpa using hpa)] at h
      obtain ⟨hx, hmem⟩ := ih h
      exact ⟨hx, List.mem_cons_of_mem a hmem⟩

/-! ## Claim theorems -/

/-- C2: for a Decision constructed with a truthy raw winning-party string,
`winning_party_name` keeps the raw string; `winning_party` resolves to the
first party's label when the raw string is a (case-sensitive) substring of
`first_party`, else to the second party's label when it is a substring of
`second_party`, else stays absent — so when both parties match, the first
party wins; and the raw value is kept as `winning_party_name` for every raw
input, resolved or not. -/
theorem C2_winning_party_resolution
    (ballots : Option (List Ballot)) (dt : Json) (fp sp fpl spl : String) (mv mnv : Json)
    (s : String) (hne : s ≠ "") :
    (Decision.make ballots (some s) dt fp sp fpl spl mv mnv).winning_party_name = some s
    ∧ (Decision.make ballots (some s) dt fp sp fpl spl mv mnv).winning_party
        = (if strContains s fp then some fpl
           else if strContains s sp then some spl
           else none)
    ∧ ∀ wp : Option String,
        (Decision.make ballots wp dt fp sp fpl spl mv mnv).winning_party_name = wp := by
  refine ⟨rfl, ?_, fun wp => rfl⟩
  simp [Decision.make, hne]

/-- C2 witness: the spec's own example, `firstParty="Smith"`,
`secondParty="Jones"`: raw `"Smith"` resolves to the first party's label, raw
`"Doe"` resolves to absent. -/
theorem C2_winning_party_resolution_witness :
    ((Decision.make none (some "Smith") .null "Smith" "Jones" "L1" "L2" .null .null).winning_party_name
        = some "Smith"
      ∧ (Decision.make none (some "Smith") .null "Smith" "Jones" "L1" "L2" .null .null).winning_party
          = (if strContains "Smith" "Smith" then some "L1"
             else if strContains "Smith" "Jones" then some "L2"
             else none)
      ∧ ∀ wp : Option String,
          (Decision.make none wp .null "Smith" "Jones" "L1" "L2" .null .null).winning_party_name = wp)
    ∧ (Decision.make none (some "Doe") .null "Smith" "Jones" "L1" "L2" .null .null).winning_party
        = none :=
  ⟨C2_winning_party_resolution none .null "Smith" "Jones" "L1" "L2" .null .null "Smith"
      (by decide),
   by
    have h := (C2_winning_party_resolution none .null "Smith" "Jones" "L1" "L2" .null .null "Doe"
      (by decide)).2.1
    rw [h]
    decide⟩

/-- C3: Person equality is exact case-sensitive name equality; a Person never
equals an absent value; and two Persons whose names differ only in letter
case are unequal yet neither is less than the other under the
case-insensitive ordering. -/
theorem C3_person_identity :
    (∀ p q : Person, Person.eqPy p (some q) = true ↔ p.name = q.name)
    ∧ (∀ p : Person, Person.eqPy p none = false)
    ∧ (∀ p q : Person, p.name ≠ q.name → lowerStr p.name = lowerStr q.name →
        Person.eqPy p (some q) = false
        ∧ Person.ltPy p q = false ∧ Person.ltPy q p = false) := by
  refine ⟨fun p q => ?_, fun p => rfl, fun p q hne hlow => ?_⟩
  · simp [Person.eqPy]
  · refine ⟨by simp [Person.eqPy, hne], ?_, ?_⟩
    · unfold Person.ltPy
      rw [hlow]
      exact charListLt_self _
    · unfold Person.ltPy
      rw [hlow]
      exact charListLt_self _

/-- C3 witness: the spec's example, names `"John Roberts"` and
`"john roberts"`. -/
theorem C3_person_identity_witness :
    ("John Roberts" : String) ≠ "john roberts"
    ∧ lowerStr "John Roberts" = lowerStr "john roberts"
    ∧ (Person.eqPy { id := .null, name := "John Roberts", last_name := .null, identifier := .null }
          (some { id := .null, name := "john roberts", last_name := .null, identifier := .null }) = false
        ∧ Person.ltPy { id := .null, name := "John Roberts", last_name := .null, identifier := .null }
            { id := .null, name := "john roberts", last_name := .null, identifier := .null } = false
        ∧ Person.ltPy { id := .null, name := "john roberts", last_name := .null, identifier := .null }
            { id := .null, name := "John Roberts", last_name := .null, identifier := .null } = false) :=
  ⟨by decide, by decide,
   C3_person_identity.2.2
     { id := .null, name := "John Roberts", last_name := .null, identifier := .null }
     { id := .null, name := "john roberts", last_name := .null, identifier := .null }
     (by decide) (by decide)⟩

/-- C5: two `load_from_remote` calls for the same URL with `overwrite=false`
return the same document and make at most one network request in total, and
the cache key is a function of the URL string alone. -/
theorem C5_cache_idempotence (Doc : Type) (hashFn : String → String) (net : String → Doc)
    (url : String) (st : CacheState Doc) :
    (load_from_remote hashFn net url false
        ((load_from_remote hashFn net url false st).state)).doc
      = (load_from_remote hashFn net url false st).doc
    ∧ (load_from_remote hashFn net url false st).webFetches
        + (load_from_remote hashFn net url false
            ((load_from_remote hashFn net url false st).state)).webFetches ≤ 1
    ∧ ∀ u v : String, u = v → cacheKey hashFn u = cacheKey hashFn v := by
  cases hl : lookupFile st.files (cacheKey hashFn url) with
  | some d =>
    refine ⟨?_, ?_, fun u v huv => by rw [huv]⟩ <;>
      simp [load_from_remote, hl]
  | none =>
    have hw : lookupFile (writeFile st (cacheKey hashFn url) (net url)).files
        (cacheKey hashFn url) = some (net url) := by
      simp [lookupFile, writeFile, List.find?]
    refine ⟨?_, ?_, fun u v huv => by rw [huv]⟩ <;>
      simp [load_from_remote, hl, hw]

/-- C5 witness: a concrete instantiation (documents are naturals, the hash is
the identity, the store starts empty). -/
theorem C5_cache_idempotence_witness :
    (load_from_remote (fun s => s) (fun _ => (0 : Nat)) "u" false
        ((load_from_remote (fun s => s) (fun _ => (0 : Nat)) "u" false
          { files := [] }).state)).doc
      = (load_from_remote (fun s => s) (fun _ => (0 : Nat)) "u" false { files := [] }).doc
    ∧ (load_from_remote (fun s => s) (fun _ => (0 : Nat)) "u" false { files := [] }).webFetches
        + (load_from_remote (fun s => s) (fun _ => (0 : Nat)) "u" false
            ((load_from_remote (fun s => s) (fun _ => (0 : Nat)) "u" false
              { files := [] }).state)).webFetches ≤ 1
    ∧ ∀ u v : String, u = v → cacheKey (fun s => s) u = cacheKey (fun s => s) v :=
  C5_cache_idempotence Nat (fun s => s) (fun _ => 0) "u" { files := [] }

/-- C7: Court construction yields an absent court (not an error) on any
plain-string document — the empty string included — and on any falsy
document (null, empty containers), while a well-formed object whose
`members` list is empty yields a present Court with an empty justice list. -/
theorem C7_court_degraded_input :
    (∀ s : String, Court.from_json (.str s) = .ok none)
    ∧ (∀ data : Json, Json.truthy data = false → Court.from_json data = .ok none)
    ∧ (∀ i idn n : Json,
        Court.from_json (.obj [("ID", i), ("identifier", idn), ("name", n),
          ("members", .arr [])])
          = .ok (some { id := i, identifier := idn, name := n, justices := [] })) := by
  refine ⟨fun s => rfl, fun data h => ?_, fun i idn n => rfl⟩
  cases data with
  | str s => rfl
  | null => rfl
  | bool b => simp [Court.from_json, h]
  | num m => simp [Court.from_json, h]
  | arr l => simp [Court.from_json, h]
  | obj m => simp [Court.from_json, h]

/-- C7 witness: the spec's triple — `Court.build("")`, `Court.build(null)`,
and a well-formed court object with an empty member list. -/
theorem C7_court_degraded_input_witness :
    Court.from_json (.str "") = .ok none
    ∧ (Json.truthy .null = false ∧ Court.from_json .null = .ok none)
    ∧ Court.from_json (.obj [("ID", .num 1), ("identifier", .str "x"),
        ("name", .str "Y"), ("members", .arr [])])
        = .ok (some { id := .num 1, identifier := .str "x", name := .str "Y", justices := [] }) :=
  ⟨C7_court_degraded_input.1 "",
   ⟨rfl, C7_court_degraded_input.2.1 .null rfl⟩,
   C7_court_degraded_input.2.2 (.num 1) (.str "x") (.str "Y")⟩

/-- C10: a successfully built Role derives `role_id` from the `href` string
as all `/`-separated segments except the last (`split("/")[:-1]`), while a
successfully built Advocate derives `case_advocate_id` as exactly the last
segment (`split("/")[-1]`). -/
theorem C10_href_derivation (roleDoc advDoc : Json) (href1 href2 : String)
    (r : Role) (a : Advocate)
    (h1 : roleDoc.getField "href" = .ok (.str href1))
    (h2 : Role.from_json roleDoc = .ok r)
    (h3 : advDoc.getField "href" = .ok (.str href2))
    (h4 : Advocate.from_json advDoc = .ok a) :
    r.role_id = (hrefSegments href1).dropLast
    ∧ a.case_advocate_id = (hrefSegments href2).getLastD "" := by
  constructor
  · unfold Role.from_json at h2
    obtain ⟨href, hh, h2⟩ := exceptBind_ok h2
    obtain ⟨v, hv, hvs⟩ := exceptBind_ok hh
    rw [h1] at hv
    cases hv
    simp only [Json.expectStr, Except.ok.injEq] at hvs
    subst hvs
    obtain ⟨rt, _, h2⟩ := exceptBind_ok h2
    obtain ⟨ty, _, h2⟩ := exceptBind_ok h2
    obtain ⟨ap, _, h2⟩ := exceptBind_ok h2
    obtain ⟨inst, _, h2⟩ := exceptBind_ok h2
    obtain ⟨de, _, h2⟩ := exceptBind_ok h2
    obtain ⟨ds, _, h2⟩ := exceptBind_ok h2
    simp only [pure, Except.pure, Except.ok.injEq] at h2
    rw [← h2]
  · unfold Advocate.from_json at h4
    obtain ⟨href, hh, h4⟩ := exceptBind_ok h4
    obtain ⟨v, hv, hvs⟩ := exceptBind_ok hh
    rw [h3] at hv
    cases hv
    simp only [Json.expectStr, Except.ok.injEq] at hvs
    subst hvs
    obtain ⟨adv, _, h4⟩ := exceptBind_ok h4
    obtain ⟨idV, _, h4⟩ := exceptBind_ok h4
    obtain ⟨nm, _, h4⟩ := exceptBind_ok h4
    obtain ⟨ln, _, h4⟩ := exceptBind_ok h4
    obtain ⟨ident, _, h4⟩ := exceptBind_ok h4
    obtain ⟨desc, _, h4⟩ := exceptBind_ok h4
    simp only [pure, Except.pure, Except.ok.injEq] at h4
    rw [← h4]

/-- C10 witness: href `"people/roles/123"` gives `role_id =
["people", "roles"]`; href `"a/b/9"` gives `case_advocate_id = "9"`. -/
theorem C10_href_derivation_witness :
    Role.from_json roleDoc10 = .ok role10
    ∧ Advocate.from_json advDoc10 = .ok adv10
    ∧ role10.role_id = (hrefSegments "people/roles/123").dropLast
    ∧ adv10.case_advocate_id = (hrefSegments "a/b/9").getLastD "" := by
  have h := C10_href_derivation roleDoc10 advDoc10 "people/roles/123" "a/b/9" role10 adv10
    rfl rfl rfl rfl
  exact ⟨rfl, rfl, h.1, h.2⟩

/-- An element failure aborts the whole turn loop. -/
theorem buildTurns_error {turn : Json} :
    ∀ {turns : List Json}, turn ∈ turns → (∃ e, buildUtterance turn = .error e) →
      ∃ e, buildTurns turns = .error e := by
  intro turns
  induction turns with
  | nil => intro h; simp at h
  | cons t ts ih =>
    intro hmem ⟨e, he⟩
    rcases List.mem_cons.mp hmem with rfl | hr
    · exact ⟨e, by simp only [buildTurns, he, bindErr]⟩
    · cases hu : buildUtterance t with
      | error e' => exact ⟨e', by simp only [buildTurns, hu, bindErr]⟩
      | ok u =>
        obtain ⟨e'', he''⟩ := ih hr ⟨e, he⟩
        exact ⟨e'', by simp only [buildTurns, hu, he'', bindOk, bindErr]⟩

/-- A failing turn in any section aborts the whole section loop. -/
theorem buildSections_error {sec turnsV : Json} {turns : List Json} {turn : Json} :
    ∀ {secs : List Json}, sec ∈ secs →
      sec.getField "turns" = .ok turnsV → Json.expectArr turnsV = .ok turns →
      turn ∈ turns → (∃ e, buildUtterance turn = .error e) →
      ∃ e, buildSections secs = .error e := by
  intro secs
  induction secs with
  | nil => intro h; simp at h
  | cons s ss ih =>
    intro hmem hg ha hturn hbad
    rcases List.mem_cons.mp hmem with rfl | hr
    · obtain ⟨e, he⟩ := buildTurns_error hturn hbad
      exact ⟨e, by simp only [buildSections, hg, ha, he, bindOk, bindErr]⟩
    · cases h1 : s.getField "turns" with
      | error e => exact ⟨e, by simp only [buildSections, h1, bindErr]⟩
      | ok tv =>
        cases h2 : Json.expectArr tv with
        | error e => exact ⟨e, by simp only [buildSections, h1, h2, bindOk, bindErr]⟩
        | ok tl =>
          cases h3 : buildTurns tl with
          | error e => exact ⟨e, by simp only [buildSections, h1, h2, h3, bindOk, bindErr]⟩
          | ok us =>
            obtain ⟨e, he⟩ := ih hr hg ha hturn hbad
            exact ⟨e, by simp only [buildSections, h1, h2, h3, he, bindOk, bindErr]⟩

/-- C9: in `Transcript.from_json` only the speaker construction is protected:
a turn that builds successfully carries exactly the try-or-absent speaker, so
a failed speaker yields an absent one while the turn still builds; but a turn
whose `text_blocks`, `start` or `stop` lookup fails makes the turn an error,
and such a turn anywhere in the sections aborts the whole transcript. -/
theorem C9_speaker_only_protected :
    (∀ (turn : Json) (e : String) (u : Utterance),
        speakerRaw turn = .error e → buildUtterance turn = .ok u → u.speaker = none)
    ∧ (∀ (turn : Json) (u : Utterance),
        buildUtterance turn = .ok u → u.speaker = trySpeaker turn)
    ∧ (∀ turn : Json,
        ((∃ e, turn.getField "text_blocks" = .error e)
          ∨ (∃ e, turn.getField "start" = .error e)
          ∨ (∃ e, turn.getField "stop" = .error e)) →
        ∃ e, buildUtterance turn = .error e)
    ∧ (∀ (data tr secsV : Json) (secs : List Json) (sec turnsV : Json)
        (turns : List Json) (turn : Json),
        data.getField "transcript" = .ok tr →
        tr.getField "sections" = .ok secsV →
        Json.expectArr secsV = .ok secs →
        sec ∈ secs →
        sec.getField "turns" = .ok turnsV →
        Json.expectArr turnsV = .ok turns →
        turn ∈ turns →
        (∃ e, buildUtterance turn = .error e) →
        ∃ e, Transcript.from_json data = .error e) := by
  have hspk : ∀ (turn : Json) (u : Utterance),
      buildUtterance turn = .ok u → u.speaker = trySpeaker turn := by
    intro turn u h
    unfold buildUtterance at h
    obtain ⟨tbsV, _, h⟩ := exceptBind_ok h
    obtain ⟨tbs, _, h⟩ := exceptBind_ok h
    obtain ⟨texts, _, h⟩ := exceptBind_ok h
    obtain ⟨start, _, h⟩ := exceptBind_ok h
    obtain ⟨stop, _, h⟩ := exceptBind_ok h
    simp only [pure, Except.pure, Except.ok.injEq] at h
    rw [← h]
  refine ⟨?_, hspk, ?_, ?_⟩
  · intro turn e u herr hok
    rw [hspk turn u hok]
    unfold trySpeaker
    rw [herr]
  · intro turn hbad
    cases h1 : turn.getField "text_blocks" with
    | error e => exact ⟨e, by simp only [buildUtterance, h1, bindErr]⟩
    | ok tbsV =>
      cases h2 : Json.expectArr tbsV with
      | error e => exact ⟨e, by simp only [buildUtterance, h1, h2, bindOk, bindErr]⟩
      | ok tbs =>
        cases h3 : mapME (fun x => x.getField "text" >>= Json.expectStr) tbs with
        | error e => exact ⟨e, by simp only [buildUtterance, h1, h2, h3, bindOk, bindErr]⟩
        | ok texts =>
          cases h4 : turn.getField "start" with
          | error e => exact ⟨e, by simp only [buildUtterance, h1, h2, h3, h4, bindOk, bindErr]⟩
          | ok startV =>
            cases h5 : turn.getField "stop" with
            | error e =>
              exact ⟨e, by simp only [buildUtterance, h1, h2, h3, h4, h5, bindOk, bindErr]⟩
            | ok stopV =>
              rcases hbad with ⟨e, he⟩ | ⟨e, he⟩ | ⟨e, he⟩
              · rw [h1] at he; cases he
              · rw [h4] at he; cases he
              · rw [h5] at he; cases he
  · intro data tr secsV secs sec turnsV turns turn h1 h2 h3 hsec h4 h5 hturn hbad
    obtain ⟨e, he⟩ := buildSections_error hsec h4 h5 hturn hbad
    exact ⟨e, by simp only [Transcript.from_json, h1, h2, h3, he, bindOk, bindErr]⟩

/-- C9 witness: a usable turn with broken speaker metadata builds with an
absent speaker; a turn missing `text_blocks` is an error; a transcript
document containing such a turn fails to build. -/
theorem C9_speaker_only_protected_witness :
    uGood.speaker = none
    ∧ (∃ e, buildUtterance turnBad = .error e)
    ∧ (∃ e, Transcript.from_json dataBad = .error e) :=
  ⟨C9_speaker_only_protected.1 turnGood "TypeError: ID" uGood rfl rfl,
   C9_speaker_only_protected.2.2.1 turnBad (Or.inl ⟨"KeyError: text_blocks", rfl⟩),
   C9_speaker_only_protected.2.2.2 dataBad
     (.obj [("sections", .arr [.obj [("turns", .arr [turnBad])]])])
     (.arr [.obj [("turns", .arr [turnBad])]])
     [.obj [("turns", .arr [turnBad])]]
     (.obj [("turns", .arr [turnBad])])
     (.arr [turnBad]) [turnBad] turnBad
     rfl rfl rfl (List.mem_singleton.mpr rfl) rfl rfl (List.mem_singleton.mpr rfl)
     ⟨"KeyError: text_blocks", rfl⟩⟩

/-- C6: in a successfully constructed Case, each of the five optional list
fields is absent whenever the corresponding source value is falsy (null,
empty, false, zero — and a missing key cannot produce a constructed Case at
all), is never a present-but-empty list, and is present and non-empty
whenever the source value is truthy. -/
theorem C6_optional_list_fields (fetch : String → Json) (data : Json) (c : Case)
    (h : Case.from_json fetch data = .ok c) :
    (∀ v, data.getField "decisions" = .ok v →
      (Json.truthy v = false → c.decisions = none)
      ∧ (∀ l, c.decisions = some l → l ≠ [])
      ∧ (Json.truthy v = true → ∃ l, c.decisions = some l ∧ l ≠ []))
    ∧ (∀ v, data.getField "advocates" = .ok v →
      (Json.truthy v = false → c.advocates = none)
      ∧ (∀ l, c.advocates = some l → l ≠ [])
      ∧ (Json.truthy v = true → ∃ l, c.advocates = some l ∧ l ≠ []))
    ∧ (∀ v, data.getField "heard_by" = .ok v →
      (Json.truthy v = false → c.heard_by = none)
      ∧ (∀ l, c.heard_by = some l → l ≠ [])
      ∧ (Json.truthy v = true → ∃ l, c.heard_by = some l ∧ l ≠ []))
    ∧ (∀ v, data.getField "decided_by" = .ok v →
      (Json.truthy v = false → c.decided_by = none)
      ∧ (∀ l, c.decided_by = some l → l ≠ [])
      ∧ (Json.truthy v = true → ∃ l, c.decided_by = some l ∧ l ≠ []))
    ∧ (∀ v, data.getField "oral_argument_audio" = .ok v →
      (Json.truthy v = false → c.transcripts = none)
      ∧ (∀ l, c.transcripts = some l → l ≠ [])
      ∧ (Json.truthy v = true → ∃ l, c.transcripts = some l ∧ l ≠ [])) := by
  unfold Case.from_json at h
  obtain ⟨advV, hA, h⟩ := exceptBind_ok h
  obtain ⟨advocates, hAdv, h⟩ := exceptBind_ok h
  obtain ⟨oaaV, hO, h⟩ := exceptBind_ok h
  obtain ⟨transcripts, hTrs, h⟩ := exceptBind_ok h
  obtain ⟨dbV, hD, h⟩ := exceptBind_ok h
  obtain ⟨decided, hDc, h⟩ := exceptBind_ok h
  obtain ⟨hbV, hH, h⟩ := exceptBind_ok h
  obtain ⟨heard, hHc, h⟩ := exceptBind_ok h
  obtain ⟨decV, hDe, h⟩ := exceptBind_ok h
  obtain ⟨decisions, hDec, h⟩ := exceptBind_ok h
  obtain ⟨termV, _, h⟩ := exceptBind_ok h
  obtain ⟨docketV, _, h⟩ := exceptBind_ok h
  obtain ⟨idV, _, h⟩ := exceptBind_ok h
  obtain ⟨fpV, _, h⟩ := exceptBind_ok h
  obtain ⟨spV, _, h⟩ := exceptBind_ok h
  obtain ⟨descV, _, h⟩ := exceptBind_ok h
  obtain ⟨nameV, _, h⟩ := exceptBind_ok h
  simp only [pure, Except.pure, Except.ok.injEq] at h
  subst h
  refine ⟨fun v hv => ?_, fun v hv => ?_, fun v hv => ?_, fun v hv => ?_, fun v hv => ?_⟩
  · rw [hDe, Except.ok.injEq] at hv
    subst hv
    exact optListField_spec hDec
  · rw [hA, Except.ok.injEq] at hv
    subst hv
    exact optListField_spec hAdv
  · rw [hH, Except.ok.injEq] at hv
    subst hv
    exact optListField_spec hHc
  · rw [hD, Except.ok.injEq] at hv
    subst hv
    exact optListField_spec hDc
  · rw [hO, Except.ok.injEq] at hv
    subst hv
    exact optListField_spec hTrs

/-- C6 witness: a minimal case document whose five optional list fields are
all null builds a Case with all five model fields absent. -/
theorem C6_optional_list_fields_witness :
    Case.from_json fetchNull c6doc = .ok c6case
    ∧ ((∀ v, c6doc.getField "decisions" = .ok v →
        (Json.truthy v = false → c6case.decisions = none)
        ∧ (∀ l, c6case.decisions = some l → l ≠ [])
        ∧ (Json.truthy v = true → ∃ l, c6case.decisions = some l ∧ l ≠ []))
      ∧ (∀ v, c6doc.getField "advocates" = .ok v →
        (Json.truthy v = false → c6case.advocates = none)
        ∧ (∀ l, c6case.advocates = some l → l ≠ [])
        ∧ (Json.truthy v = true → ∃ l, c6case.advocates = some l ∧ l ≠ []))
      ∧ (∀ v, c6doc.getField "heard_by" = .ok v →
        (Json.truthy v = false → c6case.heard_by = none)
        ∧ (∀ l, c6case.heard_by = some l → l ≠ [])
        ∧ (Json.truthy v = true → ∃ l, c6case.heard_by = some l ∧ l ≠ []))
      ∧ (∀ v, c6doc.getField "decided_by" = .ok v →
        (Json.truthy v = false → c6case.decided_by = none)
        ∧ (∀ l, c6case.decided_by = some l → l ≠ [])
        ∧ (Json.truthy v = true → ∃ l, c6case.decided_by = some l ∧ l ≠ []))
      ∧ (∀ v, c6doc.getField "oral_argument_audio" = .ok v →
        (Json.truthy v = false → c6case.transcripts = none)
        ∧ (∀ l, c6case.transcripts = some l → l ≠ [])
        ∧ (Json.truthy v = true → ∃ l, c6case.transcripts = some l ∧ l ≠ []))) :=
  ⟨rfl, C6_optional_list_fields fetchNull c6doc c6case rfl⟩

/-- Attaching the metadata columns distributes over concatenation. -/
theorem attachMeta_append (c : Case) (a b : List JoinRow) :
    attachMeta c (a ++ b) = attachMeta c a ++ attachMeta c b :=
  List.map_append _ a b

/-- Attaching the metadata columns distributes over a flat map. -/
theorem attachMeta_flatMap {α : Type} (c : Case) (ts : List α) (g : α → List JoinRow) :
    attachMeta c (ts.flatMap g) = ts.flatMap fun t => attachMeta c (g t) := by
  induction ts with
  | nil => rfl
  | cons t rest ih => simp only [List.flatMap_cons, attachMeta_append, ih]

/-- Filtering the vote table for one speaker and attaching the metadata is a
filter of the ballots by voter name. -/
theorem voteRowMap (c : Case) (p : Person) (tx : String) :
    ∀ bs : List Ballot,
      ((voteDf bs).filter (fun v => p.name == v.1.toPerson.name)).map
        (fun v => ({ speaker := p, term := c.term, docket_number := c.docket_number,
                     text := tx, vote := v.2 } : Row))
      = (bs.filter fun b => b.voter.toPerson.name == p.name).map
        (fun b => ({ speaker := p, term := c.term, docket_number := c.docket_number,
                     text := tx, vote := b.vote } : Row)) := by
  intro bs
  induction bs with
  | nil => rfl
  | cons b rest ih =>
    have hcomm : (p.name == b.voter.toPerson.name) = (b.voter.toPerson.name == p.name) := by
      by_cases he : p.name = b.voter.toPerson.name
      · rw [he]
      · rw [beq_eq_false_iff_ne.mpr he, beq_eq_false_iff_ne.mpr (Ne.symm he)]
    simp only [voteDf, List.map_cons, List.filter_cons] at ih ⊢
    rw [hcomm]
    cases hb : b.voter.toPerson.name == p.name with
    | false => simpa using ih
    | true => simpa using ih

/-- One transcript's inner join, with metadata attached, described utterance
by utterance: a speakerless utterance contributes nothing, and an utterance
by `p` contributes one row per ballot whose voter has `p`'s name. -/
theorem attach_merge (c : Case) (bs : List Ballot) :
    ∀ us : List Utterance,
      attachMeta c (mergeRows (speechDf us) (voteDf bs))
      = us.flatMap fun u =>
          match u.speaker with
          | none => []
          | some p =>
            (bs.filter fun b => b.voter.toPerson.name == p.name).map fun b =>
              ({ speaker := p, term := c.term, docket_number := c.docket_number,
                 text := u.text, vote := b.vote } : Row) := by
  intro us
  induction us with
  | nil => rfl
  | cons u rest ih =>
    simp only [speechDf, List.map_cons] at ih ⊢
    rw [mergeRows, attachMeta_append, List.flatMap_cons, ih]
    cases hs : u.speaker with
    | none => rfl
    | some p =>
      have : attachMeta c
          (((voteDf bs).filter fun v => p.name == v.1.toPerson.name).map
            fun v => ({ speaker := p, text := u.text, vote := v.2 } : JoinRow))
          = ((voteDf bs).filter (fun v => p.name == v.1.toPerson.name)).map
            (fun v => ({ speaker := p, term := c.term, docket_number := c.docket_number,
                         text := u.text, vote := v.2 } : Row)) := by
        simp [attachMeta, List.map_map]
      simp only [this, voteRowMap]

/-- The transcript loop succeeds, producing the transcript-ordered joins,
exactly when every transcript has at least one utterance. -/
theorem transcriptsDf_ok (bs : List Ballot) :
    ∀ ts : List Transcript, (∀ t ∈ ts, t.utterances ≠ []) →
      transcriptsDf bs ts
        = .ok (ts.flatMap fun t => mergeRows (speechDf t.utterances) (voteDf bs)) := by
  intro ts
  induction ts with
  | nil => intro; rfl
  | cons t rest ih =>
    intro hall
    have ht := hall t (List.mem_cons_self t rest)
    have hrest := ih fun t' h' => hall t' (List.mem_cons_of_mem _ h')
    rcases hu : t.utterances with _ | ⟨u, us⟩
    · exact absurd hu ht
    have hm : mergeDf (speechDf t.utterances) (voteDf bs)
        = .ok (mergeRows (speechDf t.utterances) (voteDf bs)) := by
      rw [hu]
      rfl
    simp only [transcriptsDf, hm, hrest, bindOk, List.flatMap_cons]
    rfl

/-- A transcript with no utterances makes the transcript loop raise. -/
theorem transcriptsDf_error (bs : List Ballot) :
    ∀ ts : List Transcript, (∃ t ∈ ts, t.utterances = []) →
      ∃ e, transcriptsDf bs ts = .error e := by
  intro ts
  induction ts with
  | nil => intro ⟨t, ht, _⟩; simp at ht
  | cons t rest ih =>
    intro ⟨t', ht', hu'⟩
    rcases List.mem_cons.mp ht' with rfl | hr
    · refine ⟨"KeyError: speaker", ?_⟩
      have hm : mergeDf (speechDf t'.utterances) (voteDf bs) = .error "KeyError: speaker" := by
        rw [hu']
        rfl
      simp only [transcriptsDf, hm, bindErr]
    · cases hm : mergeDf (speechDf t.utterances) (voteDf bs) with
      | error e => exact ⟨e, by simp only [transcriptsDf, hm, bindErr]⟩
      | ok df =>
        obtain ⟨e, he⟩ := ih ⟨t', hr, hu'⟩
        exact ⟨e, by simp only [transcriptsDf, hm, he, bindOk, bindErr]⟩

/-- On a joinable case (transcripts falsy, or all transcripts non-empty) one
decision's tables are the error-free `decisionRows`. -/
theorem decisionDf_eq (c : Case) (bs : List Ballot)
    (hjoin : c.transcripts = none ∨ c.transcripts = some []
             ∨ ∃ ts, c.transcripts = some ts ∧ ∀ t ∈ ts, t.utterances ≠ []) :
    decisionDf c bs = .ok (decisionRows c bs) := by
  rcases hjoin with h | h | ⟨ts, h, hall⟩
  · simp [decisionDf, decisionRows, h]
  · simp [decisionDf, decisionRows, h]
  · rcases ts with _ | ⟨t0, ts'⟩
    · simp [decisionDf, decisionRows, h]
    · simp [decisionDf, decisionRows, h, transcriptsDf_ok bs (t0 :: ts') hall]

/-- C4 counterexample: a case with a usable vote table (one ballot-carrying
decision) and truthy transcripts whose only transcript has no utterances.
The claim promises the (empty) inner-join table; the source instead raises
`KeyError: 'speaker'` at the merge, because the speech DataFrame built from
no utterances has no columns to join on (models.py:60-66). -/
theorem C4_empty_transcript_counterexample :
    emptyTrCase.decisions = some [cxD1]
    ∧ cxD1.ballots = some [ballotA]
    ∧ emptyTrCase.transcripts = some [emptyTranscript]
    ∧ emptyTranscript.utterances = []
    ∧ emptyTrCase.get_transcript_df false = .error "KeyError: speaker" :=
  ⟨rfl, rfl, rfl, rfl, rfl⟩

/-- C4 (amended): for a case with a usable (single-decision) vote table and
truthy transcripts each of which has at least one utterance, the ungrouped
result is the transcript-ordered concatenation of per-transcript inner
joins: a speakerless utterance is dropped, an utterance whose speaker
matches no voter is dropped (its ballot filter is empty), and an utterance
whose speaker has a voter's name yields a row with that voter's vote.  (A
transcript with no utterances instead raises: pandas cannot join on the
column-less empty speech table.) -/
theorem C4_inner_join (c : Case) (d : Decision) (bs : List Ballot) (ts : List Transcript)
    (hd : c.decisions = some [d]) (hb : d.ballots = some bs) (hbne : bs ≠ [])
    (ht : c.transcripts = some ts) (htne : ts ≠ [])
    (hu : ∀ t ∈ ts, t.utterances ≠ []) :
    c.get_transcript_df false
      = .ok (some (ts.flatMap fun t =>
          t.utterances.flatMap fun u =>
            match u.speaker with
            | none => []
            | some p =>
              (bs.filter fun b => b.voter.toPerson.name == p.name).map fun b =>
                ({ speaker := p, term := c.term, docket_number := c.docket_number,
                   text := u.text, vote := b.vote } : Row))) := by
  rcases bs with _ | ⟨b0, brest⟩
  · exact absurd rfl hbne
  rcases ts with _ | ⟨t0, trest⟩
  · exact absurd rfl htne
  have hjoin : c.transcripts = none ∨ c.transcripts = some []
      ∨ ∃ ts', c.transcripts = some ts' ∧ ∀ t ∈ ts', t.utterances ≠ [] :=
    Or.inr (Or.inr ⟨t0 :: trest, ht, hu⟩)
  have hdr : decisionRows c (b0 :: brest)
      = (t0 :: trest).flatMap fun t =>
          mergeRows (speechDf t.utterances) (voteDf (b0 :: brest)) := by
    unfold decisionRows
    rw [ht]
  have hc : collectDfs c [d] = .ok (some (decisionRows c (b0 :: brest) ++ [])) := by
    simp only [collectDfs, hb, decisionDf_eq c (b0 :: brest) hjoin]
  simp only [Case.get_transcript_df, hd, hc, List.append_nil, hdr]
  rw [if_neg (by simp : ¬ (false = true))]
  rw [attachMeta_flatMap]
  simp only [attach_merge]

/-- C4 witness: the spec's end-to-end scenario — ballots for JusticeA
(majority) and JusticeB (minority), one transcript with utterances by both,
one speakerless turn, and one turn by a non-voter; only the two voter rows
survive. -/
theorem C4_inner_join_witness :
    e2eCase.get_transcript_df false
      = .ok (some ([e2eTranscript].flatMap fun t =>
          t.utterances.flatMap fun u =>
            match u.speaker with
            | none => []
            | some p =>
              (([ballotA, ballotB]).filter fun b => b.voter.toPerson.name == p.name).map fun b =>
                ({ speaker := p, term := e2eCase.term, docket_number := e2eCase.docket_number,
                   text := u.text, vote := b.vote } : Row)))
    ∧ e2eCase.get_transcript_df false
      = .ok (some [{ speaker := pA, term := 2021, docket_number := "17-1618",
                     text := "Hello", vote := "majority" },
                   { speaker := pB, term := 2021, docket_number := "17-1618",
                     text := "Goodbye", vote := "minority" }]) :=
  ⟨C4_inner_join e2eCase e2eDecision [ballotA, ballotB] [e2eTranscript]
      rfl rfl (List.cons_ne_nil _ _) rfl (List.cons_ne_nil _ _)
      (by
        intro t htm
        rw [List.mem_singleton.mp htm]
        simp [e2eTranscript]),
   rfl⟩

/-- On a joinable case the decision loop returns `None` (no error) as soon
as any decision has falsy ballots. -/
theorem collectDfs_none_of_bad (c : Case)
    (hjoin : c.transcripts = none ∨ c.transcripts = some []
             ∨ ∃ ts, c.transcripts = some ts ∧ ∀ t ∈ ts, t.utterances ≠ []) :
    ∀ {ds : List Decision} {d : Decision}, d ∈ ds →
      (d.ballots = none ∨ d.ballots = some []) → collectDfs c ds = .ok none := by
  intro ds
  induction ds with
  | nil => intro d h; simp at h
  | cons d0 rest ih =>
    intro d hmem hbad
    rcases List.mem_cons.mp hmem with rfl | hr
    · rcases hbad with h | h <;> simp [collectDfs, h]
    · cases hb : d0.ballots with
      | none => simp [collectDfs, hb]
      | some bs =>
        cases bs with
        | nil => simp [collectDfs, hb]
        | cons b bs' =>
          simp [collectDfs, hb, decisionDf_eq c (b :: bs') hjoin, ih hr hbad]

/-- On a joinable case where every decision has truthy ballots, the decision
loop concatenates every decision's tables, in decision order. -/
theorem collectDfs_all_ok (c : Case)
    (hjoin : c.transcripts = none ∨ c.transcripts = some []
             ∨ ∃ ts, c.transcripts = some ts ∧ ∀ t ∈ ts, t.utterances ≠ []) :
    ∀ ds : List Decision, (∀ d ∈ ds, ∃ bs, d.ballots = some bs ∧ bs ≠ []) →
      collectDfs c ds = .ok (some (ds.flatMap fun d => decisionRows c (d.ballots.getD []))) := by
  intro ds
  induction ds with
  | nil => intro; rfl
  | cons d rest ih =>
    intro hall
    obtain ⟨bs, hb, hne⟩ := hall d (List.mem_cons_self d rest)
    rcases bs with _ | ⟨b0, br⟩
    · exact absurd rfl hne
    have hrest := ih fun d' hd' => hall d' (List.mem_cons_of_mem _ hd')
    simp [collectDfs, hb, decisionDf_eq c (b0 :: br) hjoin, hrest, List.flatMap_cons]

/-- With an empty-utterance transcript present, the first decision with
truthy ballots makes the decision loop raise, before any `return None`. -/
theorem collectDfs_error_of_empty_transcript (c : Case) (ts : List Transcript)
    (hts : c.transcripts = some ts) (hempty : ∃ t ∈ ts, t.utterances = [])
    (d0 : Decision) (rest : List Decision) (bs : List Ballot)
    (hb : d0.ballots = some bs) (hne : bs ≠ []) :
    ∃ e, collectDfs c (d0 :: rest) = .error e := by
  rcases bs with _ | ⟨b, bs'⟩
  · exact absurd rfl hne
  obtain ⟨e, he⟩ := transcriptsDf_error (b :: bs') ts hempty
  have hdf : decisionDf c (b :: bs') = .error e := by
    rcases ts with _ | ⟨t0, ts'⟩
    · obtain ⟨t, ht, _⟩ := hempty
      simp at ht
    · simp [decisionDf, hts, he]
  exact ⟨e, by simp [collectDfs, hb, hdf]⟩

/-- C1 (amended): the speaker join builds a vote table from the ballots of
every decision, not only the first.  The result is absent with no error when
the case has no decisions; on a joinable case (transcripts falsy, or every
transcript non-empty) the result is absent with no error when any decision
lacks ballots, and when every decision has ballots the ungrouped result
concatenates every decision's tables in decision order — so later
decisions' ballots do contribute rows; with an empty-utterance transcript
present, a first decision that has ballots makes the join raise pandas'
error instead. -/
theorem C1_vote_tables_from_every_decision (c : Case) (g : Bool) :
    (c.decisions = none → c.get_transcript_df g = .ok none)
    ∧ (c.decisions = some [] → c.get_transcript_df g = .ok none)
    ∧ ((c.transcripts = none ∨ c.transcripts = some []
        ∨ ∃ ts, c.transcripts = some ts ∧ ∀ t ∈ ts, t.utterances ≠ []) →
       (∀ (ds : List Decision) (d : Decision), c.decisions = some ds → d ∈ ds →
          (d.ballots = none ∨ d.ballots = some []) → c.get_transcript_df g = .ok none)
       ∧ (∀ ds : List Decision, c.decisions = some ds → ds ≠ [] →
          (∀ d ∈ ds, ∃ bs, d.ballots = some bs ∧ bs ≠ []) →
          c.get_transcript_df false
            = .ok (some (attachMeta c
                (ds.flatMap fun d => decisionRows c (d.ballots.getD []))))))
    ∧ (∀ ts : List Transcript, c.transcripts = some ts →
        (∃ t ∈ ts, t.utterances = []) →
        ∀ (d0 : Decision) (rest : List Decision), c.decisions = some (d0 :: rest) →
          (∃ bs, d0.ballots = some bs ∧ bs ≠ []) →
          ∃ e, c.get_transcript_df g = .error e) := by
  refine ⟨fun h => by simp [Case.get_transcript_df, h],
          fun h => by simp [Case.get_transcript_df, h],
          fun hjoin => ⟨?_, ?_⟩, ?_⟩
  · intro ds d hds hmem hbad
    rcases ds with _ | ⟨d0, ds'⟩
    · simp at hmem
    · have hc := collectDfs_none_of_bad c hjoin hmem hbad
      simp [Case.get_transcript_df, hds, hc]
  · intro ds hds hne hall
    rcases ds with _ | ⟨d0, ds'⟩
    · exact absurd rfl hne
    have hc := collectDfs_all_ok c hjoin (d0 :: ds') hall
    simp only [Case.get_transcript_df, hds, hc]
    rw [if_neg (by simp : ¬ (false = true))]
  · intro ts hts hempty d0 rest hds ⟨bs, hb, hne⟩
    obtain ⟨e, he⟩ := collectDfs_error_of_empty_transcript c ts hts hempty d0 rest bs hb hne
    exact ⟨e, by simp [Case.get_transcript_df, hds, he]⟩

/-- C1 counterexample: a case with two decisions, each holding one ballot
and no transcripts.  The claim says only the first decision's ballots form
the vote table and later decisions never contribute rows; the code emits one
row per ballot of *both* decisions — here the second output row carries
JusticeB's vote, and JusticeB appears in no ballot of the first decision. -/
theorem C1_first_decision_only_counterexample :
    cxCase.decisions = some [cxD1, cxD2]
    ∧ cxD1.ballots = some [ballotA]
    ∧ ballotA.voter.toPerson.name ≠ "JusticeB"
    ∧ pB.name = "JusticeB"
    ∧ cxCase.get_transcript_df false
        = .ok (some [{ speaker := pA, term := 2020, docket_number := "1",
                       text := "", vote := "majority" },
                     { speaker := pB, term := 2020, docket_number := "1",
                       text := "", vote := "minority" }]) :=
  ⟨rfl, rfl, by decide, rfl, rfl⟩

/-- C1 witness: the amended characterization applied to the two-decision,
no-transcript case: the output concatenates both decisions' vote tables. -/
theorem C1_vote_tables_from_every_decision_witness :
    cxCase.get_transcript_df false
      = .ok (some (attachMeta cxCase
          ([cxD1, cxD2].flatMap fun d => decisionRows cxCase (d.ballots.getD [])))) :=
  ((C1_vote_tables_from_every_decision cxCase false).2.2.1 (Or.inl rfl)).2 [cxD1, cxD2] rfl
    (List.cons_ne_nil _ _)
    (by
      intro d hd
      rcases List.mem_cons.mp hd with rfl | hd'
      · exact ⟨[ballotA], rfl, List.cons_ne_nil _ _⟩
      · rcases List.mem_singleton.mp hd' with rfl
        exact ⟨[ballotB], rfl, List.cons_ne_nil _ _⟩)

/-- The aggregated row built for a key of the table keeps that key. -/
theorem groupKeyOf_mkGroupRow (rows : List Row) (k : String × Int × String)
    (hk : k ∈ rows.map groupKeyOf) : groupKeyOf (mkGroupRow rows k) = k := by
  obtain ⟨r, hr, hkr⟩ := List.mem_map.mp hk
  have hmem : r ∈ rows.filter (fun r' => decide (groupKeyOf r' = k)) :=
    List.mem_filter.mpr ⟨hr, by simp [hkr]⟩
  rcases hf : rows.filter (fun r' => decide (groupKeyOf r' = k)) with _ | ⟨g, gs⟩
  · rw [hf] at hmem
    simp at hmem
  · have hg := (filter_head hf).1
    simp only [decide_eq_true_eq] at hg
    simp only [mkGroupRow, hf]
    unfold groupKeyOf at hg ⊢
    rw [← hg]

/-- The group keys of the grouped table are exactly the deduplicated keys of
the ungrouped table. -/
theorem map_groupKeyOf_groupRows (rows : List Row) :
    (groupRows rows).map groupKeyOf = dedupKeys (rows.map groupKeyOf) := by
  unfold groupRows
  rw [List.map_map]
  have h : ∀ k ∈ dedupKeys (rows.map groupKeyOf),
      (groupKeyOf ∘ mkGroupRow rows) k = id k := fun k hk =>
    groupKeyOf_mkGroupRow rows k ((mem_dedupKeys k _).mp hk)
  rw [List.map_congr_left h, List.map_id]

/-- The grouped call shares the ungrouped call's joined table. -/
theorem get_transcript_df_grouped (c : Case) (rows : List Row)
    (h : c.get_transcript_df false = .ok (some rows)) :
    c.get_transcript_df true = .ok (some (groupRows rows)) := by
  unfold Case.get_transcript_df at h ⊢
  cases hd : c.decisions with
  | none => rw [hd] at h; simp at h
  | some ds =>
    rw [hd] at h
    cases ds with
    | nil => simp at h
    | cons d ds' =>
      cases hc : collectDfs c (d :: ds') with
      | error e => simp [hc] at h
      | ok o =>
        cases o with
        | none => simp [hc] at h
        | some joined =>
          simp [hc] at h
          simp [hc, h]

/-- C8: when grouping is requested the result has exactly one row per
distinct (speaker name, term, docket number) key of the joined table; each
grouped row's text is the space-joined concatenation of its group's text
values in row order, and its vote and speaker come from the group's first
row. -/
theorem C8_grouped_aggregation (c : Case) (rows : List Row)
    (h : c.get_transcript_df false = .ok (some rows)) :
    ∃ grows, c.get_transcript_df true = .ok (some grows)
      ∧ (grows.map groupKeyOf).Nodup
      ∧ (∀ k, k ∈ grows.map groupKeyOf ↔ k ∈ rows.map groupKeyOf)
      ∧ ∀ g ∈ grows,
          g.text = joinSep " "
              ((rows.filter fun r => decide (groupKeyOf r = groupKeyOf g)).map Row.text)
          ∧ ∃ r0 rs, rows.filter (fun r => decide (groupKeyOf r = groupKeyOf g)) = r0 :: rs
              ∧ g.vote = r0.vote ∧ g.speaker = r0.speaker := by
  refine ⟨groupRows rows, get_transcript_df_grouped c rows h, ?_, ?_, ?_⟩
  · rw [map_groupKeyOf_groupRows]
    exact nodup_dedupKeys _
  · intro k
    rw [map_groupKeyOf_groupRows]
    exact mem_dedupKeys k _
  · intro g hg
    obtain ⟨k, hk, hmk⟩ := List.mem_map.mp hg
    have hkrows : k ∈ rows.map groupKeyOf := (mem_dedupKeys k _).mp hk
    have hkey : groupKeyOf g = k := by
      rw [← hmk]
      exact groupKeyOf_mkGroupRow rows k hkrows
    obtain ⟨r, hr, hkr⟩ := List.mem_map.mp hkrows
    have hmem : r ∈ rows.filter (fun r' => decide (groupKeyOf r' = k)) :=
      List.mem_filter.mpr ⟨hr, by simp [hkr]⟩
    rcases hf : rows.filter (fun r' => decide (groupKeyOf r' = k)) with _ | ⟨g0, gs⟩
    · rw [hf] at hmem
      simp at hmem
    · have hgt : g.text = joinSep " " ((g0 :: gs).map Row.text) := by
        rw [← hmk]
        simp [mkGroupRow, hf]
      have hgv : g.vote = g0.vote := by
        rw [← hmk]
        simp [mkGroupRow, hf]
      have hgS : g.speaker = g0.speaker := by
        rw [← hmk]
        simp [mkGroupRow, hf]
      refine ⟨?_, g0, gs, by rw [hkey]; exact hf, hgv, hgS⟩
      rw [hkey, hf]
      exact hgt

/-- C8 witness: one voter who speaks twice — utterances `"Hello"` then
`"again"` — groups into rows whose key list is exactly that voter's key, with
the group's texts `["Hello", "again"]` joined and the majority vote first. -/
theorem C8_grouped_aggregation_witness :
    grpCase.get_transcript_df false
      = .ok (some [{ speaker := pA, term := 2021, docket_number := "17-1618",
                     text := "Hello", vote := "majority" },
                   { speaker := pA, term := 2021, docket_number := "17-1618",
                     text := "again", vote := "majority" }])
    ∧ (∃ grows, grpCase.get_transcript_df true = .ok (some grows)
        ∧ (grows.map groupKeyOf).Nodup
        ∧ (∀ k, k ∈ grows.map groupKeyOf ↔
            k ∈ ([{ speaker := pA, term := 2021, docket_number := "17-1618",
                    text := "Hello", vote := "majority" },
                  { speaker := pA, term := 2021, docket_number := "17-1618",
                    text := "again", vote := "majority" }] : List Row).map groupKeyOf)
        ∧ ∀ g ∈ grows,
            g.text = joinSep " "
                ((([{ speaker := pA, term := 2021, docket_number := "17-1618",
                      text := "Hello", vote := "majority" },
                    { speaker := pA, term := 2021, docket_number := "17-1618",
                      text := "again", vote := "majority" }] : List Row).filter
                  fun r => decide (groupKeyOf r = groupKeyOf g)).map Row.text)
            ∧ ∃ r0 rs,
                ([{ speaker := pA, term := 2021, docket_number := "17-1618",
                    text := "Hello", vote := "majority" },
                  { speaker := pA, term := 2021, docket_number := "17-1618",
                    text := "again", vote := "majority" }] : List Row).filter
                    (fun r => decide (groupKeyOf r = groupKeyOf g)) = r0 :: rs
                ∧ g.vote = r0.vote ∧ g.speaker = r0.speaker)
    ∧ grpCase.get_transcript_df true
      = .ok (some [{ speaker := pA, term := 2021, docket_number := "17-1618",
                     text := "Hello again", vote := "majority" }]) :=
  ⟨rfl,
   C8_grouped_aggregation grpCase
     [{ speaker := pA, term := 2021, docket_number := "17-1618",
        text := "Hello", vote := "majority" },
      { speaker := pA, term := 2021, docket_number := "17-1618",
        text := "again", vote := "majority" }] rfl,
   rfl⟩

end Supremes
